import Mathlib

/-
  Shallow embedding of the CHIP-8 interpreter (src/instruction.rs, src/main.rs,
  src/types.rs).

  Conventions of the embedding:
  * Machine integers are modelled as `Nat` with explicit truncation where the
    Rust code can wrap: `u8` arithmetic as `% 256`, `u16` arithmetic as
    `% 65536`, `usize` arithmetic as `% USIZE` (release-build wrapping
    semantics; debug builds would abort at the same spots).
  * Array / slice indexing that can go out of bounds in Rust (which aborts in
    every build mode), and the `unimplemented` instruction arms, are modelled
    by `Option`: `none` means the operation aborts instead of returning.
  * The newtypes `Addr`, `RegId`, `Val` (types.rs) are transparent wrappers
    around machine integers; the embedding uses plain `Nat` for their payloads.
  * Fixed-size arrays (`[u8; 4096]`, `[Reg; 16]`, `[Addr; 16]`,
    `[[u8; 64]; 32]`) are modelled as total functions from indices, updated
    with `upd` / `upd2`; the Rust bound checks are made explicit at each
    indexing site.
-/

namespace Chip8Emu

/-- Pointwise update of a one-argument table (models writing one cell of a
Rust array). -/
def upd (f : Nat → Nat) (i v : Nat) : Nat → Nat :=
  fun j => if j = i then v else f j

/-- Pointwise update of a two-argument table (models writing one pixel of the
`[[u8; 64]; 32]` framebuffer). -/
def upd2 (f : Nat → Nat → Nat) (r c v : Nat) : Nat → Nat → Nat :=
  fun a b => if a = r ∧ b = c then v else f a b

/-- Wrap-around modulus of `usize` (64-bit build). -/
def USIZE : Nat := 18446744073709551616

/-- The instruction enum of instruction.rs, operands flattened to `Nat`
(the `Addr` / `RegId` / `Val` / `u8` newtype payloads). -/
inductive Instruction where
  | Sys (addr : Nat)
  | Cls
  | Ret
  | Jump (addr : Nat)
  | Call (addr : Nat)
  | SeVal (x k : Nat)
  | SneVal (x k : Nat)
  | SeReg (x y : Nat)
  | LdVal (x k : Nat)
  | AddVal (x k : Nat)
  | LdReg (x y : Nat)
  | Or (x y : Nat)
  | And (x y : Nat)
  | Xor (x y : Nat)
  | AddReg (x y : Nat)
  | Sub (x y : Nat)
  | Shr (x : Nat)
  | SubN (x y : Nat)
  | Shl (x : Nat)
  | SneReg (x y : Nat)
  | LdI (addr : Nat)
  | JpOfs (addr : Nat)
  | Rnd (x k : Nat)
  | Drw (x y n : Nat)
  | Skp (x : Nat)
  | Sknp (x : Nat)
  | Dt (x : Nat)
  | LdKey (x : Nat)
  | LdDt (x : Nat)
  | LdSt (x : Nat)
  | AddI (x : Nat)
  | LdDigit (x : Nat)
  | Bcd (x : Nat)
  | Store (x : Nat)
  | Read (x : Nat)
deriving DecidableEq, Repr

/-- `bytes` from instruction.rs: `[hi, lo]` where `lo = (x & 0xFF) as u8` and
`hi = (x >> 8) as u8`.  Returned as a pair `(hi, lo)`. -/
def bytes (x : Nat) : Nat × Nat :=
  ((x >>> 8) % 256, x &&& 255)

/-- `nibbles` from instruction.rs: `result[3 - i] = ((x >> (4 * i)) & 0xF)`.
`nib x i` is `result[i]`, i.e. nibble `i` counted from the most significant. -/
def nib (x i : Nat) : Nat :=
  (x >>> (4 * (3 - i))) &&& 15

/-- `Instruction::interpret` from instruction.rs.  The outer `Option` models
the `unimplemented` fallback arm of the match on the high nibble (`none` =
abort); the inner `Option` is the source function's `Option<Instruction>`
return value (`some none` = decode failure `None`). -/
def Instruction.interpret (opcode : Nat) : Option (Option Instruction) :=
  let b1 := (bytes opcode).2
  let tail := opcode &&& 0xFFF
  let x := nib opcode 1
  let y := nib opcode 2
  match nib opcode 0 with
  | 0x0 =>
    match tail with
    | 0x0E0 => some (some .Cls)
    | 0x0EE => some (some .Ret)
    | _ => some none
  | 0x1 => some (some (.Jump tail))
  | 0x2 => some (some (.Call tail))
  | 0x3 => some (some (.SeVal x b1))
  | 0x4 => some (some (.SneVal x b1))
  | 0x5 =>
    match nib opcode 3 with
    | 0 => some (some (.SeReg x y))
    | _ => some none
  | 0x6 => some (some (.LdVal x b1))
  | 0x7 => some (some (.AddVal x b1))
  | 0x8 =>
    match nib opcode 3 with
    | 0x0 => some (some (.LdReg x y))
    | 0x1 => some (some (.Or x y))
    | 0x2 => some (some (.And x y))
    | 0x3 => some (some (.Xor x y))
    | 0x4 => some (some (.AddReg x y))
    | 0x5 => some (some (.Sub x y))
    | 0x6 => some (some (.Shr x))
    | 0x7 => some (some (.SubN x y))
    | 0xE => some (some (.Shl x))
    | _ => some none
  | 0x9 =>
    match nib opcode 3 with
    | 0 => some (some (.SneReg x y))
    | _ => some none
  | 0xA => some (some (.LdI tail))
  | 0xB => some (some (.JpOfs tail))
  | 0xC => some (some (.Rnd x b1))
  | 0xD => some (some (.Drw x y (nib opcode 3)))
  | 0xE =>
    match b1 with
    | 0x9E => some (some (.Skp x))
    | 0xA1 => some (some (.Sknp x))
    | _ => some none
  | 0xF =>
    match b1 with
    | 0x07 => some (some (.Dt x))
    | 0x0A => some (some (.LdKey x))
    | 0x15 => some (some (.LdDt x))
    | 0x18 => some (some (.LdSt x))
    | 0x1E => some (some (.AddI x))
    | 0x29 => some (some (.LdDigit x))
    | 0x33 => some (some (.Bcd x))
    | 0x55 => some (some (.Store x))
    | 0x65 => some (some (.Read x))
    | _ => some none
  | _ => none

/-- The `DIGITS` glyph table constant from main.rs (defined there but never
copied into machine memory). -/
def DIGITS : List (List Nat) :=
  [[0xF0, 0x90, 0x90, 0x90, 0xF0],
   [0x20, 0x60, 0x20, 0x20, 0x70],
   [0xF0, 0x10, 0xF0, 0x80, 0xF0],
   [0xF0, 0x10, 0xF0, 0x10, 0xF0],
   [0x90, 0x90, 0xF0, 0x10, 0x10],
   [0xF0, 0x80, 0xF0, 0x10, 0xF0],
   [0xF0, 0x80, 0xF0, 0x90, 0xF0],
   [0xF0, 0x10, 0x20, 0x40, 0x40],
   [0xF0, 0x90, 0xF0, 0x90, 0xF0],
   [0xF0, 0x90, 0xF0, 0x10, 0xF0],
   [0xF0, 0x90, 0xF0, 0x90, 0x90],
   [0xE0, 0x90, 0xE0, 0x90, 0xE0],
   [0xF0, 0x80, 0x80, 0x80, 0xF0],
   [0xE0, 0x90, 0x90, 0x90, 0xE0],
   [0xF0, 0x80, 0xF0, 0x80, 0xF0],
   [0xF0, 0x80, 0xF0, 0x80, 0x80]]

/-- The 64 by 32 framebuffer (`Display` struct, main.rs).  `pixels r c` is
row `r`, column `c`, each cell 0 or 1. -/
structure Display where
  pixels : Nat → Nat → Nat

def Display.new : Display := ⟨fun _ _ => 0⟩

def Display.clear (_d : Display) : Display := ⟨fun _ _ => 0⟩

/-- Inner loop of `Display::draw`: iterates `x_ofs` over the enumerated
`(0..8).rev()` pairs, so `shift = 7 - x_ofs`; `break` when
`x + x_ofs >= 64`.  The collision line of the source reads the pixel at the
sprite origin `(y, x)` after the XOR write, faithfully reproduced here. -/
def drawBits (x y yofs byte : Nat) :
    (Nat → Nat → Nat) → Bool → List Nat → (Nat → Nat → Nat) × Bool
  | pix, col, [] => (pix, col)
  | pix, col, xofs :: rest =>
    if 64 ≤ x + xofs then (pix, col)
    else
      let shift := 7 - xofs
      let bit := (byte >>> shift) &&& 1
      let pix2 := upd2 pix (y + yofs) (x + xofs) ((pix (y + yofs) (x + xofs)) ^^^ bit)
      let col2 := col || decide (pix2 y x ≠ bit)
      drawBits x y yofs byte pix2 col2 rest

/-- Outer loop of `Display::draw`: iterates over the sprite bytes with their
row offsets; `break` when `y + y_ofs >= 32`. -/
def drawRows (x y : Nat) :
    (Nat → Nat → Nat) → Bool → Nat → List Nat → (Nat → Nat → Nat) × Bool
  | pix, col, _, [] => (pix, col)
  | pix, col, yofs, byte :: rest =>
    if 32 ≤ y + yofs then (pix, col)
    else
      let r := drawBits x y yofs byte pix col [0, 1, 2, 3, 4, 5, 6, 7]
      drawRows x y r.1 r.2 (yofs + 1) rest

/-- `Display::draw` from main.rs: returns the updated framebuffer and the
`collision` flag. -/
def Display.draw (d : Display) (x y : Nat) (sprite : List Nat) :
    Display × Bool :=
  let r := drawRows x y d.pixels false 0 sprite
  (⟨r.1⟩, r.2)

/-- Program counter operations (`Pc` struct, main.rs); the payload is a `u16`
address, arithmetic wraps mod 65536. -/
def Pc.increment (pc : Nat) : Nat := (pc + 2) % 65536

/-- `Pc::increment_cond`: add 2 when `cond` holds. -/
def Pc.incrementCond (pc : Nat) (cond : Bool) : Nat :=
  (pc + 2 * cond.toNat) % 65536

/-- `Pc::jump`: sets the counter to `addr - 2` (wrapping u16 subtraction);
the post-cycle advance then lands on `addr`. -/
def Pc.jump (addr : Nat) : Nat := (addr + 65534) % 65536

/-- `Reg::add` (`u8::overflowing_add`): wrapped sum and carry flag. -/
def Reg.add (v k : Nat) : Nat × Bool :=
  ((v + k) % 256, decide (256 ≤ v + k))

/-- `Reg::sub` (`u8::overflowing_sub`): wrapped difference and borrow flag
(for operands below 256). -/
def Reg.sub (v k : Nat) : Nat × Bool :=
  ((v + 256 - k) % 256, decide (v < k))

/-- `Reg::shr`: logical shift right by one; no flag is written. -/
def Reg.shr (v : Nat) : Nat := v >>> 1

/-- `Reg::shl`: shift left by one, high bit discarded (`u8` shift);
no flag is written. -/
def Reg.shl (v : Nat) : Nat := (v <<< 1) % 256

/-- The call stack (`Stack` struct, main.rs): a 16-entry array of `u16`
return addresses and a `usize` stack pointer. -/
structure Stack where
  stack : Nat → Nat
  sp : Nat

def Stack.new : Stack := ⟨fun _ => 0, 0⟩

/-- `Stack::push`: writes `stack[sp]` then increments `sp`.  Indexing with
`sp >= 16` aborts (Rust index out of bounds) — there is no overflow handling
in the source (its TODO comment admits this). -/
def Stack.push (s : Stack) (addr : Nat) : Option Stack :=
  if s.sp < 16 then some ⟨upd s.stack s.sp addr, (s.sp + 1) % USIZE⟩
  else none

/-- `Stack::pop`: reads `stack[sp]` (the slot above the top — the source does
not decrement before reading) and then decrements `sp`.  Indexing with
`sp >= 16` aborts; `sp -= 1` at `sp = 0` wraps (release semantics of the
`usize` subtraction; debug builds abort there).  There is no underflow
handling in the source (its TODO comment admits this). -/
def Stack.pop (s : Stack) : Option (Nat × Stack) :=
  if s.sp < 16 then some (s.stack s.sp, ⟨s.stack, (s.sp + (USIZE - 1)) % USIZE⟩)
  else none

/-- The machine state (`Chip8` struct, main.rs).  `sp` duplicates the field
of the source struct that the source never uses. -/
structure Chip8 where
  mem : Nat → Nat
  register_v : Nat → Nat
  register_i : Nat
  delay : Nat
  sound : Nat
  pc : Nat
  sp : Nat
  stack : Stack
  display : Display

/-- `Chip8::new`: zeroed memory and registers, pc at 0x200, empty stack,
blank display.  The `DIGITS` table is not copied anywhere. -/
def Chip8.new : Chip8 where
  mem := fun _ => 0
  register_v := fun _ => 0
  register_i := 0
  delay := 0
  sound := 0
  pc := 0x200
  sp := 0
  stack := Stack.new
  display := Display.new

/-- `Chip8::set_carry`: writes register 15. -/
def setCarry (regs : Nat → Nat) (carry : Bool) : Nat → Nat :=
  upd regs 15 carry.toNat

/-- The `Store` arm loop of `Chip8::exec`: `for k in 0..x` (exclusive bound,
as in the source) writing `mem[I + k] = V[k]`; the third `Nat` argument is
the number of remaining iterations.  Each write checks the Rust bound
`I + k < 4096` (out of bounds aborts). -/
def storeFrom (regs : Nat → Nat) (i : Nat) :
    (Nat → Nat) → Nat → Nat → Option (Nat → Nat)
  | mem, _, 0 => some mem
  | mem, k, n + 1 =>
    if i + k < 4096 then storeFrom regs i (upd mem (i + k) (regs k)) (k + 1) n
    else none

/-- The `Read` arm loop of `Chip8::exec`: `for k in 0..x` (exclusive bound,
as in the source) writing `V[k] = mem[I + k]`, with the same bound check. -/
def readFrom (mem : Nat → Nat) (i : Nat) :
    (Nat → Nat) → Nat → Nat → Option (Nat → Nat)
  | regs, _, 0 => some regs
  | regs, k, n + 1 =>
    if i + k < 4096 then readFrom mem i (upd regs k (mem (i + k))) (k + 1) n
    else none

/-- The match body of `Chip8::exec` (before the unconditional
`pc.increment`).  `none` models the `unimplemented` arms and the aborting
out-of-bounds accesses. -/
def Chip8.execBody (c : Chip8) : Instruction → Option Chip8
  | .Sys _ => none
  | .Cls => some { c with display := c.display.clear }
  | .Ret =>
    (c.stack.pop).map fun p => { c with stack := p.2, pc := Pc.jump p.1 }
  | .Jump addr => some { c with pc := Pc.jump addr }
  | .Call addr =>
    (c.stack.push c.pc).map fun st => { c with stack := st, pc := Pc.jump addr }
  | .SeVal x k =>
    some { c with pc := Pc.incrementCond c.pc (c.register_v x == k) }
  | .SneVal x k =>
    some { c with pc := Pc.incrementCond c.pc (c.register_v x != k) }
  | .SeReg x y =>
    some { c with pc := Pc.incrementCond c.pc (c.register_v x == c.register_v y) }
  | .LdVal x k => some { c with register_v := upd c.register_v x k }
  | .AddVal x k =>
    some { c with register_v := upd c.register_v x (Reg.add (c.register_v x) k).1 }
  | .LdReg x y =>
    some { c with register_v := upd c.register_v x (c.register_v y) }
  | .Or x y =>
    some { c with register_v := upd c.register_v x (c.register_v x ||| c.register_v y) }
  | .And x y =>
    some { c with register_v := upd c.register_v x (c.register_v x &&& c.register_v y) }
  | .Xor x y =>
    -- the source Xor arm (main.rs line 327) computes `*x_val & *y_val`,
    -- a bitwise AND
    some { c with register_v := upd c.register_v x (c.register_v x &&& c.register_v y) }
  | .AddReg x y =>
    let r := Reg.add (c.register_v x) (c.register_v y)
    some { c with register_v := setCarry (upd c.register_v x r.1) r.2 }
  | .Sub x y =>
    let r := Reg.sub (c.register_v x) (c.register_v y)
    some { c with register_v := setCarry (upd c.register_v x r.1) (! r.2) }
  | .Shr x =>
    some { c with register_v := upd c.register_v x (Reg.shr (c.register_v x)) }
  | .SubN x y =>
    let r := Reg.sub (c.register_v y) (c.register_v x)
    some { c with register_v := setCarry (upd c.register_v y r.1) (! r.2) }
  | .Shl x =>
    some { c with register_v := upd c.register_v x (Reg.shl (c.register_v x)) }
  | .SneReg x y =>
    -- the source SneReg arm (main.rs line 348) tests equality, like SeReg
    some { c with pc := Pc.incrementCond c.pc (c.register_v x == c.register_v y) }
  | .LdI addr => some { c with register_i := addr }
  | .JpOfs addr =>
    some { c with register_i := (addr + c.register_v 0) % 65536 }
  | .Rnd _ _ => none
  | .Drw x y n =>
    if c.register_i + n ≤ 4096 then
      let sprite := (List.range n).map fun j => c.mem (c.register_i + j)
      let r := c.display.draw (c.register_v x) (c.register_v y) sprite
      some { c with display := r.1, register_v := setCarry c.register_v r.2 }
    else none
  | .Skp _ => none
  | .Sknp _ => none
  | .Dt x => some { c with register_v := upd c.register_v x c.delay }
  | .LdKey _ => none
  | .LdDt x => some { c with delay := c.register_v x }
  | .LdSt x => some { c with sound := c.register_v x }
  | .AddI x =>
    some { c with register_i := (c.register_i + c.register_v x) % 65536 }
  | .LdDigit _ => none
  | .Bcd x =>
    if c.register_i + 2 < 4096 then
      let v := c.register_v x
      let m1 := upd c.mem c.register_i (v / 100 % 10)
      let m2 := upd m1 (c.register_i + 1) (v / 10 % 10)
      some { c with mem := upd m2 (c.register_i + 2) (v % 10) }
    else none
  | .Store x =>
    (storeFrom c.register_v c.register_i c.mem 0 x).map fun m => { c with mem := m }
  | .Read x =>
    (readFrom c.mem c.register_i c.register_v 0 x).map fun r => { c with register_v := r }

/-- `Chip8::exec`: the instruction match followed by the unconditional
`self.pc.increment()`. -/
def Chip8.exec (c : Chip8) (i : Instruction) : Option Chip8 :=
  (c.execBody i).map fun s => { s with pc := Pc.increment s.pc }

/-! ## Loop lemmas shared by the Store/Read claims -/

/-- The Store loop succeeds when every touched address is in bounds; the
touched cells hold the stored register values and every other cell is
unchanged. -/
theorem storeFrom_spec (regs : Nat → Nat) (i : Nat) :
    ∀ (n : Nat) (mem : Nat → Nat) (k : Nat),
      (∀ j, k ≤ j → j < k + n → i + j < 4096) →
      ∃ m2, storeFrom regs i mem k n = some m2 ∧
        (∀ j, k ≤ j → j < k + n → m2 (i + j) = regs j) ∧
        (∀ a, (∀ j, k ≤ j → j < k + n → a ≠ i + j) → m2 a = mem a) := by
  intro n
  induction n with
  | zero =>
    intro mem k hbound
    exact ⟨mem, rfl, fun j h1 h2 => absurd h2 (by omega), fun a _ => rfl⟩
  | succ n ih =>
    intro mem k hbound
    have hk : i + k < 4096 := hbound k (Nat.le_refl k) (by omega)
    obtain ⟨m2, hm2, hin, hout⟩ :=
      ih (upd mem (i + k) (regs k)) (k + 1) (fun j h1 h2 => hbound j (by omega) (by omega))
    refine ⟨m2, ?_, ?_, ?_⟩
    · show (if i + k < 4096 then
          storeFrom regs i (upd mem (i + k) (regs k)) (k + 1) n else none) = some m2
      rw [if_pos hk]; exact hm2
    · intro j h1 h2
      rcases Nat.eq_or_lt_of_le h1 with h1e | h1lt
      · rw [← h1e]
        rw [hout (i + k) (fun j2 hj1 hj2 => by omega)]
        simp [upd]
      · exact hin j (by omega) (by omega)
    · intro a ha
      rw [hout a (fun j hj1 hj2 => ha j (by omega) (by omega))]
      have hne : a ≠ i + k := ha k (Nat.le_refl k) (by omega)
      simp [upd, hne]

/-- The Read loop succeeds when every touched address is in bounds; the
touched registers receive the memory values and every other register is
unchanged. -/
theorem readFrom_spec (mem : Nat → Nat) (i : Nat) :
    ∀ (n : Nat) (regs : Nat → Nat) (k : Nat),
      (∀ j, k ≤ j → j < k + n → i + j < 4096) →
      ∃ r2, readFrom mem i regs k n = some r2 ∧
        (∀ j, k ≤ j → j < k + n → r2 j = mem (i + j)) ∧
        (∀ j, j < k ∨ k + n ≤ j → r2 j = regs j) := by
  intro n
  induction n with
  | zero =>
    intro regs k hbound
    exact ⟨regs, rfl, fun j h1 h2 => absurd h2 (by omega), fun j _ => rfl⟩
  | succ n ih =>
    intro regs k hbound
    have hk : i + k < 4096 := hbound k (Nat.le_refl k) (by omega)
    obtain ⟨r2, hr2, hin, hout⟩ :=
      ih (upd regs k (mem (i + k))) (k + 1) (fun j h1 h2 => hbound j (by omega) (by omega))
    refine ⟨r2, ?_, ?_, ?_⟩
    · show (if i + k < 4096 then
          readFrom mem i (upd regs k (mem (i + k))) (k + 1) n else none) = some r2
      rw [if_pos hk]; exact hr2
    · intro j h1 h2
      rcases Nat.eq_or_lt_of_le h1 with h1e | h1lt
      · rw [← h1e]
        rw [hout k (Or.inl (by omega))]
        simp [upd]
      · exact hin j (by omega) (by omega)
    · intro j hj
      rw [hout j (by omega)]
      have hne : j ≠ k := by omega
      simp [upd, hne]

/-! ## Claim theorems -/

/-- Claim C1: for every 16-bit opcode, `Instruction::interpret` is total —
it returns exactly one result (an instruction or a decode failure) and never
reaches the `unimplemented` fallback arm of the high-nibble match, because
the extracted nibble is always below 16. -/
theorem C1_interpret_total (opcode : Nat) (h : opcode < 65536) :
    ∃ r : Option Instruction, Instruction.interpret opcode = some r := by
  suffices hs : Instruction.interpret opcode ≠ none by
    cases he : Instruction.interpret opcode with
    | none => exact absurd he hs
    | some r => exact ⟨r, rfl⟩
  have h16 : nib opcode 0 < 16 :=
    Nat.lt_of_le_of_lt Nat.and_le_right (by norm_num)
  unfold Instruction.interpret
  generalize hg : nib opcode 0 = m at h16 ⊢
  interval_cases m <;> (try simp) <;> (try (split <;> simp))

/-- Witness for C1 at the concrete opcode 0xD123. -/
theorem C1_interpret_total_witness :
    0xD123 < 65536 ∧ ∃ r : Option Instruction, Instruction.interpret 0xD123 = some r :=
  ⟨by decide, C1_interpret_total 0xD123 (by decide)⟩

/-- Claim C2 is refuted by the code: on a fresh machine (pc = 0x200, zeroed
empty stack) executing Call 0x300 and then Ret leaves the program counter at
0, not at 0x200 or 0x202, because `Stack::pop` reads `stack[sp]` — the slot
one above the top — instead of the slot the Call wrote.  At depth 15 the
same pair aborts outright: the pop indexes `stack[16]`. -/
theorem C2_call_ret_trace :
    ((Chip8.new.exec (Instruction.Call 0x300)).bind
        (fun s => s.exec Instruction.Ret)).map Chip8.pc = some 0 ∧
    Chip8.new.pc = 0x200 ∧
    ((({ Chip8.new with stack := ⟨fun _ => 0, 15⟩ } : Chip8).exec
        (Instruction.Call 0x300)).bind
      (fun s => s.exec Instruction.Ret)) = none :=
  ⟨rfl, rfl, rfl⟩

/-- Claim C3 is refuted by the code: drawing the one-byte sprite 0x01 at the
origin of a completely blank display reports `collided = true`, although no
previously-set pixel exists.  The source compares the pixel at the sprite
origin (after its XOR update) with the current sprite bit instead of testing
old-pixel AND sprite-bit per target cell. -/
theorem C3_draw_blank_collision :
    (Display.new.draw 0 0 [1]).2 = true ∧
    (∀ r c, Display.new.pixels r c = 0) :=
  ⟨rfl, fun _ _ => rfl⟩

/-- Claim C4 is refuted by the code: with V0 = 1 and V1 = 2 (unequal),
SneReg does not skip (pc advances only to 0x202), and with V0 = V1 = 5 it
does skip (pc 0x204) — the source tests equality, the inverse of the
documented 9xy0 SNE semantics. -/
theorem C4_snereg_inverted :
    (({ Chip8.new with register_v := upd (upd Chip8.new.register_v 0 1) 1 2 } : Chip8).exec
        (Instruction.SneReg 0 1)).map Chip8.pc = some 0x202 ∧
    (({ Chip8.new with register_v := upd (upd Chip8.new.register_v 0 5) 1 5 } : Chip8).exec
        (Instruction.SneReg 0 1)).map Chip8.pc = some 0x204 :=
  ⟨rfl, rfl⟩

/-- Claim C5 is refuted by the code: with V0 = 3 and V1 = 1, executing Xor
leaves V0 = 1 — the bitwise AND of the operands — although the exclusive-or
of 3 and 1 is 2.  The Xor arm of `Chip8::exec` computes an AND. -/
theorem C5_xor_is_and :
    (({ Chip8.new with register_v := upd (upd Chip8.new.register_v 0 3) 1 1 } : Chip8).exec
        (Instruction.Xor 0 1)).map (fun s => s.register_v 0) = some 1 ∧
    (3 ^^^ 1 : Nat) = 2 :=
  ⟨rfl, rfl⟩

/-- Claim C6 is refuted by the code: Shr with V0 = 0x03 yields V0 = 0x01 but
leaves VF at 0 (the claim requires VF = 1, the shifted-out low bit), and Shl
with V0 = 0x81 yields V0 = 0x02 but leaves VF at 0 (the claim requires
VF = 1, the shifted-out high bit).  `Reg::shr` and `Reg::shl` only shift;
no arm writes the flag register. -/
theorem C6_shift_flag_missing :
    (({ Chip8.new with register_v := upd Chip8.new.register_v 0 3 } : Chip8).exec
        (Instruction.Shr 0)).map (fun s => (s.register_v 0, s.register_v 15)) = some (1, 0) ∧
    (({ Chip8.new with register_v := upd Chip8.new.register_v 0 0x81 } : Chip8).exec
        (Instruction.Shl 0)).map (fun s => (s.register_v 0, s.register_v 15)) = some (2, 0) :=
  ⟨rfl, rfl⟩

/-- Claim C7 is refuted by the code: the Store and Read loops run k over
`0..x` exclusive, so Store with x = 0 and V0 = 7 writes nothing at
memory address I = 0x300, and Read with x = 0 and the byte 9 at I leaves
V0 = 7 — register Vx itself is never transferred. -/
theorem C7_store_read_exclusive :
    (({ Chip8.new with register_v := upd Chip8.new.register_v 0 7, register_i := 0x300 } : Chip8).exec
        (Instruction.Store 0)).map (fun s => s.mem 0x300) = some 0 ∧
    (({ Chip8.new with mem := upd Chip8.new.mem 0x300 9, register_v := upd Chip8.new.register_v 0 7, register_i := 0x300 } : Chip8).exec
        (Instruction.Read 0)).map (fun s => s.register_v 0) = some 7 :=
  ⟨rfl, rfl⟩

/-- Claim C8: for every x in 0–15 and every machine state whose touched
memory range is in bounds, executing Store x and then Read x with the same
index register leaves all 16 general-purpose registers holding their
original values (the exclusive loop bound is symmetric between the two
instructions, so the round-trip still holds). -/
theorem C8_store_read_roundtrip (c : Chip8) (x : Nat) (hx : x ≤ 15)
    (hI : c.register_i + x < 4096) :
    ∃ c1 c2, c.exec (Instruction.Store x) = some c1 ∧
      c1.exec (Instruction.Read x) = some c2 ∧
      ∀ r, r < 16 → c2.register_v r = c.register_v r := by
  obtain ⟨m2, hm2, hin, hout⟩ :=
    storeFrom_spec c.register_v c.register_i x c.mem 0 (fun j h1 h2 => by omega)
  obtain ⟨r2, hr2, hrin, hrout⟩ :=
    readFrom_spec m2 c.register_i x c.register_v 0 (fun j h1 h2 => by omega)
  refine ⟨{ c with mem := m2, pc := Pc.increment c.pc }, { c with mem := m2, register_v := r2, pc := Pc.increment (Pc.increment c.pc) }, ?_, ?_, ?_⟩
  · simp [Chip8.exec, Chip8.execBody, hm2]
  · simp [Chip8.exec, Chip8.execBody, hr2]
  · intro r hr
    show r2 r = c.register_v r
    by_cases hrx : r < x
    · rw [hrin r (Nat.zero_le r) (by omega), hin r (Nat.zero_le r) (by omega)]
    · exact hrout r (Or.inr (by omega))

/-- Witness for C8 on the fresh machine with x = 2. -/
theorem C8_store_read_roundtrip_witness :
    (2 ≤ 15 ∧ Chip8.new.register_i + 2 < 4096) ∧
    (∃ c1 c2, Chip8.new.exec (Instruction.Store 2) = some c1 ∧
      c1.exec (Instruction.Read 2) = some c2 ∧
      ∀ r, r < 16 → c2.register_v r = Chip8.new.register_v r) :=
  ⟨⟨by decide, by decide⟩,
   C8_store_read_roundtrip Chip8.new 2 (by decide) (by decide)⟩

/-- Claim C9 is refuted by the code: popping the empty stack does not raise
an underflow fault — it silently returns the bottom slot and wraps the stack
pointer around the usize range — and pushing onto a full 16-entry stack
aborts through an out-of-bounds array index instead of raising a reported
stack-overflow fault. -/
theorem C9_stack_faults_unreported :
    (Stack.new.pop).map (fun p => (p.1, p.2.sp)) = some (0, USIZE - 1) ∧
    ({ stack := fun _ => 0, sp := 16 } : Stack).push 0x200 = none :=
  ⟨rfl, rfl⟩

/-- Claim C10, initialization state: pc = 0x200, empty stack, zero
registers, index register and timers, blank display — but the memory is
entirely zero: the DIGITS glyph table (whose first sprite byte is 0xF0) is
never copied into the glyph region, and LdDigit aborts as unimplemented. -/
theorem C10_init_state :
    Chip8.new.pc = 0x200 ∧ Chip8.new.stack.sp = 0 ∧ Chip8.new.register_i = 0 ∧
    Chip8.new.delay = 0 ∧ Chip8.new.sound = 0 ∧
    (∀ i, Chip8.new.register_v i = 0) ∧
    (∀ a, Chip8.new.mem a = 0) ∧
    (∀ r c, Chip8.new.display.pixels r c = 0) ∧
    Chip8.new.exec (Instruction.LdDigit 0) = none ∧
    DIGITS.head?.map List.head? = some (some 0xF0) :=
  ⟨rfl, rfl, rfl, rfl, rfl, fun _ => rfl, fun _ => rfl, fun _ _ => rfl, rfl, rfl⟩

end Chip8Emu
